import Mathlib

/-!
# A verification model of the wr job-queue core

This file gives a shallow embedding, in Lean, of the three subsystems of the
`wr` repository that the specification covers:

* the OpenStack cloud scheduler (`src/jobqueue/scheduler/openstack.go`):
  standin servers, spawn throttling, quota reservations and `canCount`;
* the request dispatcher (`src/jobqueue/serverCLI.go`): `getij` and the
  `jstart`/`jtouch`/`jend`/`jarchive`/`jrelease` methods, and the polling
  loop behind `reserve`;
* the queue sub-queue state machine, whose operations (`Reserve`, `Touch`,
  `Release`, `Bury`, `Remove`) live in the `queue` package outside the
  sources at hand and are therefore modelled from the specification.

Go `int` values are modelled as `Int`; Go's truncating integer division is
`Int.tdiv`.  Maps keyed by strings are association lists.  Fallible
operations return `Option`.  Time is an abstract integer clock (seconds).
-/

namespace WR

/-- Resource requirements of one command (`Requirements` in the scheduler
package): RAM in MB, core count, disk in GB.  `Time` and the `Other` map are
omitted; where `Other["cloud_os_ram"]` matters it is passed explicitly as an
`osRAM` argument. -/
structure Requirements where
  ram : Int
  cores : Int
  disk : Int
deriving DecidableEq

/-- A cloud server flavor (`cloud.Flavor`): core count, RAM in MB, disk in
GB. -/
structure Flavor where
  cores : Int
  ram : Int
  disk : Int
deriving DecidableEq

/-- A server mid-spawn (`standin` in openstack.go, lines 140-152): the chosen
flavor, the requested disk, the OS image name and the usage pre-allocated to
it.  `fail`/`work` are the latch flags set by `failed()`/`worked()`. -/
structure standinRec where
  id : String
  flavor : Flavor
  disk : Int
  os : String
  usedRAM : Int
  usedCores : Int
  usedDisk : Int
  fail : Bool
  work : Bool
deriving DecidableEq

/-- `newStandin` (openstack.go lines 154-157). -/
def newStandin (id : String) (flavor : Flavor) (disk : Int) (osName : String) : standinRec :=
  { id := id, flavor := flavor, disk := disk, os := osName,
    usedRAM := 0, usedCores := 0, usedDisk := 0, fail := false, work := false }

/-- `standin.allocate` (openstack.go lines 159-166). -/
def allocate (s : standinRec) (req : Requirements) : standinRec :=
  { s with usedCores := s.usedCores + req.cores,
           usedRAM := s.usedRAM + req.ram,
           usedDisk := s.usedDisk + req.disk }

/-- Go integer division: division by zero is a runtime panic, which the model
makes explicit as `none`; otherwise Go truncates toward zero (`Int.tdiv`). -/
def checkedDiv (a b : Int) : Option Int :=
  if b = 0 then none else some (a.tdiv b)

/-- The `if n < cur { cur = n }` update pattern used throughout
openstack.go. -/
def minIfLess (cur n : Int) : Int :=
  if n < cur then n else cur

/-- `standin.hasSpaceFor` (openstack.go lines 169-187).  The Go function
divides by `req.Cores`, `req.RAM` and `req.Disk` without guarding against
zero, so the model returns `none` exactly where Go would panic. -/
def hasSpaceFor (s : standinRec) (req : Requirements) : Option Int :=
  if s.flavor.cores - s.usedCores < req.cores ∨ s.flavor.ram - s.usedRAM < req.ram ∨
      s.disk - s.usedDisk < req.disk then
    some 0
  else
    match checkedDiv (s.flavor.cores - s.usedCores) req.cores with
    | none => none
    | some canDo =>
      if 1 < canDo then
        match checkedDiv (s.flavor.ram - s.usedRAM) req.ram with
        | none => none
        | some n1 =>
          match checkedDiv (s.disk - s.usedDisk) req.disk with
          | none => none
          | some n2 => some (minIfLess (minIfLess canDo n1) n2)
      else some canDo

/-- The value claim C10 says `standin.hasSpaceFor` computes for positive
requirements: `0` when some dimension lacks room, otherwise the minimum over
the three dimensions of remaining capacity divided by the requirement. -/
def standinSpaceSpec (s : standinRec) (req : Requirements) : Int :=
  if s.flavor.cores - s.usedCores < req.cores ∨ s.flavor.ram - s.usedRAM < req.ram ∨
      s.disk - s.usedDisk < req.disk then
    0
  else
    min ((s.flavor.cores - s.usedCores).tdiv req.cores)
      (min ((s.flavor.ram - s.usedRAM).tdiv req.ram) ((s.disk - s.usedDisk).tdiv req.disk))

/-- A standin state used to exercise `hasSpaceFor` at concrete inputs. -/
def wStandin : standinRec :=
  allocate (newStandin "s1" { cores := 4, ram := 4096, disk := 20 } 20 "img") { ram := 1024, cores := 1, disk := 5 }

/-! ## The OpenStack scheduler state (`opst`, openstack.go lines 44-63)

Only the fields the claims are about are modelled: the quota reservation
counters, the spawn-throttle counters and `nextSpawnTime`, and the standins
map. -/

structure OpstState where
  quotaMaxInstances : Int
  reservedInstances : Int
  reservedCores : Int
  reservedRAM : Int
  reservedVolume : Int
  waitingToSpawn : Int
  spawningNow : Int
  nextSpawnTime : Int
  standins : List (String × standinRec)
deriving DecidableEq

/-- The start of the spawn branch of `opst.runCmd` (openstack.go lines
525-553): decide whether to spawn now or wait, pre-reserve quota
(`reservedInstances++` etc., volume only when the flavor's disk does not
cover `req.Disk`), and register an allocated standin. -/
def runCmdStartSpawn (st : OpstState) (flavor : Flavor) (req : Requirements)
    (standinID : String) (osName : String) (now : Int) : OpstState :=
  let volumeAffected := flavor.disk < req.disk
  let st1 :=
    if st.waitingToSpawn + st.spawningNow = 0 then
      { st with nextSpawnTime := now + 10, spawningNow := st.spawningNow + 1 }
    else
      { st with waitingToSpawn := st.waitingToSpawn + 1 }
  let st2 :=
    { st1 with
      reservedInstances := st1.reservedInstances + 1,
      reservedCores := st1.reservedCores + flavor.cores,
      reservedRAM := st1.reservedRAM + flavor.ram,
      reservedVolume := if volumeAffected then st1.reservedVolume + req.disk else st1.reservedVolume }
  { st2 with standins := (standinID, allocate (newStandin standinID flavor req.disk osName) req) :: st2.standins }

/-- The `<-s.stopWaitingToSpawn` branch of the waiter goroutine in
`opst.runCmd` (openstack.go lines 576-584): decrement `waitingToSpawn`, mark
the standin failed, delete it from the map, and have `runCmd` return an
error.  Returns the new state and the (failed) standin object.  Note the
branch does not touch the `reserved*` counters. -/
def runCmdCancelWait (st : OpstState) (standinID : String) : OpstState × Option standinRec :=
  ({ st with
      waitingToSpawn := st.waitingToSpawn - 1,
      standins := st.standins.filter (fun p => p.1 ≠ standinID) },
   (st.standins.find? (fun p => p.1 == standinID)).map (fun p => { p.2 with fail := true }))

/-! ## The spawn throttle (openstack.go lines 534-592) as an event machine

Events at integer timestamps: `arrive` is a `runCmd` call reaching the spawn
branch (lines 535-541); `tick` is one 1 Hz check by a waiting `runCmd`
(lines 563-574); `spawnDone` is `spawningNow--` after `Spawn` returns
(lines 643 / 657); `cancel` is a waiter removed via `stopWaitingToSpawn`
(lines 576-584).  The `Bool` of `throttleStep` records whether the event
initiated a call to `provider.Spawn`. -/

inductive SpawnEvent
  | arrive
  | tick
  | spawnDone
  | cancel
deriving DecidableEq

structure ThrottleState where
  waiting : Int
  spawning : Int
  nextSpawnTime : Int
deriving DecidableEq

def throttleStep (st : ThrottleState) (t : Int) (e : SpawnEvent) : ThrottleState × Bool :=
  match e with
  | SpawnEvent.arrive =>
    if st.waiting + st.spawning = 0 then
      ({ st with nextSpawnTime := t + 10, spawning := st.spawning + 1 }, true)
    else
      ({ st with waiting := st.waiting + 1 }, false)
  | SpawnEvent.tick =>
    if st.nextSpawnTime < t then
      ({ st with nextSpawnTime := t + 10, waiting := st.waiting - 1, spawning := st.spawning + 1 }, true)
    else
      (st, false)
  | SpawnEvent.spawnDone => ({ st with spawning := st.spawning - 1 }, false)
  | SpawnEvent.cancel => ({ st with waiting := st.waiting - 1 }, false)

/-- Run a timed event trace, returning the final state and the subtrace of
events that initiated a spawn. -/
def throttleRun (st : ThrottleState) : List (Int × SpawnEvent) → ThrottleState × List (Int × SpawnEvent)
  | [] => (st, [])
  | (t, e) :: rest =>
    let se := throttleStep st t e
    let r := throttleRun se.1 rest
    (r.1, (if se.2 then [(t, e)] else []) ++ r.2)

/-- The scheduler's initial throttle state: no waiters, no spawns in flight,
zero `nextSpawnTime`. -/
def throttleInitSt : ThrottleState :=
  { waiting := 0, spawning := 0, nextSpawnTime := 0 }

def throttleInits (tr : List (Int × SpawnEvent)) : List (Int × SpawnEvent) :=
  (throttleRun throttleInitSt tr).2

/-- Timestamps along the trace never decrease. -/
def timesMonoB : List (Int × SpawnEvent) → Bool
  | (t, _) :: (t', e') :: rest => decide (t ≤ t') && timesMonoB ((t', e') :: rest)
  | _ => true

/-- Consecutive entries are at least 10 seconds apart ("at most one per
10-second window"). -/
def spaced10B : List (Int × SpawnEvent) → Bool
  | (t, _) :: (t', e') :: rest => decide (t + 10 ≤ t') && spaced10B ((t', e') :: rest)
  | _ => true

/-- Claim C3 as stated: on every time-ordered trace, spawn initiations are
at least 10 seconds apart. -/
def SpawnThrottleClaim : Prop :=
  ∀ tr : List (Int × SpawnEvent), timesMonoB tr = true → spaced10B (throttleInits tr) = true

/-- Among consecutive spawn initiations, one caused by a waiter's `tick`
promotion comes strictly more than 10 seconds after its predecessor. -/
def tickSpacedB : List (Int × SpawnEvent) → Bool
  | (t, _) :: (t', e') :: rest =>
    (if e' = SpawnEvent.tick then decide (t + 10 < t') else true) && tickSpacedB ((t', e') :: rest)
  | _ => true

/-- Strengthened invariant form of `tickSpacedB`: `nxt` is the
`nextSpawnTime` in force before the first listed initiation, and every
initiation resets it to its own time plus 10. -/
def tickSpacedFromB (nxt : Int) : List (Int × SpawnEvent) → Bool
  | [] => true
  | (t, e) :: rest =>
    (if e = SpawnEvent.tick then decide (nxt < t) else true) && tickSpacedFromB (t + 10) rest

/-! ## Quota accounting: `canCount` (openstack.go lines 351-452)

`provider.GetQuota` and `provider.CheapestServerFlavor` are external
capabilities; their answers enter as `Option` arguments.  A server's
`HasSpaceFor(req)` value is likewise external (the `cloud` package) and is
abstracted as the per-server `space` field, with its `Destroyed()` flag. -/

/-- `unquotadVal` (openstack.go line 40). -/
def unquotadVal : Int := 1000000

structure Quota where
  maxInstances : Int
  maxCores : Int
  maxRAM : Int
  maxVolume : Int
  usedInstances : Int
  usedCores : Int
  usedRAM : Int
  usedVolume : Int
deriving DecidableEq

/-- One entry of `opst.servers`, abstracted for a fixed request: the
`Destroyed()` flag and the `HasSpaceFor(req)` answer. -/
structure SrvSpace where
  destroyed : Bool
  space : Int
deriving DecidableEq

/-- The existing-servers loop of `canCount` (openstack.go lines 370-376):
destroyed servers are dropped (contributing nothing), the rest contribute
their `HasSpaceFor` count. -/
def existingCapacity : List SrvSpace → Int
  | [] => 0
  | s :: rest => (if s.destroyed then 0 else s.space) + existingCapacity rest

/-- `opst.reqForSpawn` (openstack.go lines 458-481): raise RAM to the
operating system's minimum (`osRAM` is the already-resolved
`Other["cloud_os_ram"]`-or-config value). -/
def reqForSpawn (osRAM : Int) (req : Requirements) : Requirements :=
  if req.ram < osRAM then { ram := osRAM, cores := req.cores, disk := req.disk } else req

/-- `opst.canCount` (openstack.go lines 353-452). -/
def canCount (s : OpstState) (servers : List SrvSpace) (flavorRes : Option Flavor)
    (quotaRes : Option Quota) (osRAM : Int) (req : Requirements) : Int :=
  let existing := existingCapacity servers
  match flavorRes, quotaRes with
  | none, _ => existing
  | some _, none => existing
  | some flavor, some quota =>
    let reqS := reqForSpawn osRAM req
    let remainingInstances :=
      if 0 < s.quotaMaxInstances then s.quotaMaxInstances - quota.usedInstances - s.reservedInstances
      else unquotadVal
    let remainingRAM :=
      if 0 < quota.maxRAM then quota.maxRAM - quota.usedRAM - s.reservedRAM else unquotadVal
    let remainingCores :=
      if 0 < quota.maxCores then quota.maxCores - quota.usedCores - s.reservedCores else unquotadVal
    let checkVolume := flavor.disk < req.disk
    let remainingVolume :=
      if 0 < quota.maxVolume ∧ checkVolume then quota.maxVolume - quota.usedVolume - s.reservedVolume
      else unquotadVal
    if remainingInstances < 1 ∨ remainingRAM < flavor.ram ∨ remainingCores < flavor.cores ∨
        remainingVolume < req.disk then
      existing
    else
      let spawnable :=
        if 1 < remainingInstances then
          let s1 := minIfLess remainingInstances (remainingRAM.tdiv flavor.ram)
          let s2 := minIfLess s1 (remainingCores.tdiv flavor.cores)
          if checkVolume then minIfLess s2 (remainingVolume.tdiv req.disk) else s2
        else remainingInstances
      let perServer0 := flavor.cores.tdiv reqS.cores
      let perServer :=
        if 1 < perServer0 then
          let p1 := if 0 < reqS.ram then minIfLess perServer0 (flavor.ram.tdiv reqS.ram) else perServer0
          if 0 < reqS.disk then
            minIfLess p1 (if checkVolume then 1 else flavor.disk.tdiv reqS.disk)
          else p1
        else perServer0
      existing + spawnable * perServer

/-- `canCount` as claim C8 words it: existing capacity plus
`spawnable × perServer`, with `spawnable` the minimum over quota dimensions
of remaining-quota-over-flavor-need (volume counted only when `req.Disk`
exceeds the flavor's disk), `perServer` the minimum over dimensions of
flavor-capacity-over-spawn-requirement (disk contribution fixed at 1 when an
external volume supplies the disk), and only the existing total when no
flavor fits or some remaining dimension cannot fit one flavor. -/
def canCountSpec (s : OpstState) (servers : List SrvSpace) (flavorRes : Option Flavor)
    (quotaRes : Option Quota) (osRAM : Int) (req : Requirements) : Int :=
  let existing := ((servers.filter (fun sv => !sv.destroyed)).map SrvSpace.space).sum
  match flavorRes, quotaRes with
  | some flavor, some quota =>
    let reqS := reqForSpawn osRAM req
    let remainingInstances := s.quotaMaxInstances - quota.usedInstances - s.reservedInstances
    let remainingRAM := quota.maxRAM - quota.usedRAM - s.reservedRAM
    let remainingCores := quota.maxCores - quota.usedCores - s.reservedCores
    let remainingVolume := quota.maxVolume - quota.usedVolume - s.reservedVolume
    let externalVolume := flavor.disk < req.disk
    if remainingInstances < 1 ∨ remainingRAM < flavor.ram ∨ remainingCores < flavor.cores ∨
        (externalVolume ∧ remainingVolume < req.disk) then
      existing
    else
      let spawnable :=
        if externalVolume then
          min remainingInstances
            (min (remainingRAM.tdiv flavor.ram)
              (min (remainingCores.tdiv flavor.cores) (remainingVolume.tdiv req.disk)))
        else
          min remainingInstances
            (min (remainingRAM.tdiv flavor.ram) (remainingCores.tdiv flavor.cores))
      let perServer :=
        min (flavor.cores.tdiv reqS.cores)
          (min (flavor.ram.tdiv reqS.ram)
            (if externalVolume then 1 else flavor.disk.tdiv reqS.disk))
      existing + spawnable * perServer
  | _, _ => existing

/-! ## The `reserve` polling loop (serverCLI.go lines 146-193)

When the first `q.Reserve` finds nothing ready, the dispatcher builds a stop
channel — `time.After(cr.Timeout)` when `cr.Timeout > 0`, otherwise a fresh
channel nobody ever writes to — and a goroutine retries `q.Reserve` each
`ServerReserveTicker` tick until an item arrives, the queue closes, or the
stop channel fires.  Ticks are modelled by successive naturals; the queue's
answer at each tick is an oracle `polls`.  Modelled from the spec:
`q.Reserve` on an empty Ready sub-queue yields `NothingReady` (§4.1). -/

inductive QPoll
  | nothingReady
  | avail
  | closed
deriving DecidableEq

inductive ReserveOutcome
  | gotJob
  | emptyReply
  | errClosed
deriving DecidableEq

/-- The stop channel: fires from `stopTick` on iff the client timeout was
positive (serverCLI.go lines 151-156). -/
def stopChan (timeout : Int) (stopTick : Nat) : Option Nat :=
  if 0 < timeout then some stopTick else none

def stopFired (stop : Option Nat) (tick : Nat) : Bool :=
  match stop with
  | some s => s ≤ tick
  | none => false

/-- The polling goroutine (serverCLI.go lines 160-187), run for `fuel`
ticks; `none` means the dispatcher is still blocked on `itemerrch`. -/
def reserveLoop (polls : Nat → QPoll) (stop : Option Nat) : Nat → Nat → Option ReserveOutcome
  | _, 0 => none
  | tick, fuel + 1 =>
    if stopFired stop tick then some ReserveOutcome.emptyReply
    else
      match polls tick with
      | QPoll.nothingReady => reserveLoop polls stop (tick + 1) fuel
      | QPoll.avail => some ReserveOutcome.gotJob
      | QPoll.closed => some ReserveOutcome.errClosed

/-- The dispatcher's behaviour on a `reserve` whose first `q.Reserve` found
the Ready sub-queue empty. -/
def handleReserveOnEmpty (timeout : Int) (stopTick : Nat) (polls : Nat → QPoll)
    (fuel : Nat) : Option ReserveOutcome :=
  reserveLoop polls (stopChan timeout stopTick) 0 fuel

/-- Claim C2 as stated: a reserve with non-positive timeout against an empty
Ready sub-queue replies immediately (whatever the queue does afterwards)
with no job and no error. -/
def ReserveZeroTimeoutImmediate : Prop :=
  ∀ timeout : Int, timeout ≤ 0 →
    ∀ (stopTick : Nat) (polls : Nat → QPoll) (fuel : Nat),
      handleReserveOnEmpty timeout stopTick polls fuel = some ReserveOutcome.emptyReply

/-! ## The server (serverCLI.go): one job, its queue item, and the j*
methods

The queue item's sub-queue membership and the queue operations `Reserve`,
`Touch`, `Release`, `Bury`, `Remove` belong to the `queue` package and are
modelled from the spec (§4.1).  The job's fields follow `serverCLI.go`'s
uses.  Client UUIDs are naturals, `0` standing for the zero UUID. -/

inductive ItemState
  | delay
  | ready
  | run
  | bury
  | dependent
deriving DecidableEq

inductive JobState
  | delayed
  | ready
  | reserved
  | running
  | lost
  | buried
  | dependent
  | complete
  | unknown
deriving DecidableEq

/-- The stable error tokens returned in `serverResponse.Err`. -/
inductive SrErr
  | wrongUser
  | badRequest
  | badJob
  | mustReserve
  | dbError
  | internalError
  | unknownCommand
  | queueClosed
deriving DecidableEq

structure Job where
  reservedBy : Nat
  exited : Bool
  exitcode : Int
  pid : Int
  host : String
  hostID : String
  hostIP : String
  startTime : Option Int
  endTime : Option Int
  peakRAM : Int
  cputime : Int
  attempts : Int
  untilBuried : Int
  retries : Int
  killCalled : Bool
  lost : Bool
  state : JobState
  failReason : String
  actualCwd : String
  repGroup : String
  schedGroup : String
  recsUpdated : Bool
deriving DecidableEq

/-- A `jstateCount` status broadcast. -/
structure Broadcast where
  repGroup : String
  fromState : JobState
  toState : JobState
  delta : Int
deriving DecidableEq

/-- Server-side state around one job: its queue item (`none` when removed
from the queue), the item's TTR deadline and release delay, the job record,
the server-wide kill flag, this job's scheduler-group counter, whether the
job has been archived to the complete bucket, its `rpl` reverse-lookup
entry, whether stdio blobs were written, and the status broadcasts sent. -/
structure SState where
  item : Option ItemState
  ttr : Int
  delay : Int
  job : Job
  killRunners : Bool
  groupCount : Int
  archived : Bool
  rplEntry : Bool
  stdioSaved : Bool
  broadcasts : List Broadcast
deriving DecidableEq

/-- The fields of the `cr.Job` payload the j* methods read. -/
structure CRJob where
  pid : Int
  host : String
  hostIP : String
  exitcode : Int
  peakRAM : Int
  cputime : Int
  actualCwd : String
  failReason : String
deriving DecidableEq

/-- A decoded `clientRequest`, reduced to the fields the j* methods use. -/
structure ClientRequest where
  clientID : Nat
  job : Option CRJob
deriving DecidableEq

/-- Modelled from the spec (§4.1): `Reserve` pops a Ready item into Run with
a fresh TTR; `NothingReady` (here `none`) otherwise. -/
def qReserve (now ttrConf : Int) (st : SState) : Option SState :=
  if st.item = some ItemState.ready then
    some { st with item := some ItemState.run, ttr := now + ttrConf }
  else none

/-- Modelled from the spec (§4.1): `Touch` extends the Run-queue TTR, failing
when the item is not in Run. -/
def qTouch (now ttrConf : Int) (st : SState) : Option SState :=
  if st.item = some ItemState.run then some { st with ttr := now + ttrConf } else none

/-- Modelled from the spec (§4.1): `Release` moves Run → Delay. -/
def qRelease (st : SState) : Option SState :=
  if st.item = some ItemState.run then some { st with item := some ItemState.delay } else none

/-- Modelled from the spec (§4.1): `Bury` moves Run or Delay → Bury. -/
def qBury (st : SState) : Option SState :=
  if st.item = some ItemState.run ∨ st.item = some ItemState.delay then
    some { st with item := some ItemState.bury }
  else none

/-- Modelled from the spec (§4.1): `Remove` removes the item from whatever
sub-queue holds it. -/
def qRemove (st : SState) : Option SState :=
  if st.item ≠ none then some { st with item := none } else none

/-- Modelled from the spec (§4.1): `SetDelay` records the delay the item
will get on release. -/
def qSetDelay (d : Int) (st : SState) : SState :=
  { st with delay := d }

/-- `scheduler.HostToID` lives outside these sources; its value never
matters to the claims, so it is an opaque constant. -/
def hostToID (_ : String) : String := ""

/-- `Server.getij` (serverCLI.go lines 532-551): require a `Job` payload,
find the item, require it to be in the Run sub-queue (`BadJob` otherwise),
and require the caller to be the reserving client (`MustReserve`
otherwise). -/
def getij (cr : ClientRequest) (st : SState) : Option SrErr :=
  match cr.job with
  | none => some SrErr.badRequest
  | some _ =>
    match st.item with
    | none => some SrErr.badJob
    | some is =>
      if is ≠ ItemState.run then some SrErr.badJob
      else if cr.clientID ≠ st.job.reservedBy then some SrErr.mustReserve
      else none

/-- The post-`Reserve` clean-up and assignment (serverCLI.go lines 196-209):
set `ReservedBy` and reset the per-attempt fields, then `SetDelay`. -/
def reserveAssign (clientID : Nat) (clientReleaseDelay : Int) (st : SState) : SState :=
  qSetDelay clientReleaseDelay
    { st with job := { st.job with
        reservedBy := clientID, exited := false, pid := 0, host := "",
        startTime := none, endTime := none, peakRAM := 0, exitcode := -1 } }

/-- `jstart` (serverCLI.go lines 217-240). -/
def jstart (cr : ClientRequest) (now : Int) (st : SState) : Option SrErr × SState :=
  match getij cr st with
  | some e => (some e, st)
  | none =>
    match cr.job with
    | none => (some SrErr.badRequest, st)
    | some cj =>
      if cj.pid ≤ 0 ∨ cj.host = "" then (some SrErr.badRequest, st)
      else
        (none, { st with job := { st.job with
          host := cj.host,
          hostID := if cj.host ≠ "" then hostToID cj.host else st.job.hostID,
          hostIP := cj.hostIP,
          pid := cj.pid,
          startTime := some now,
          endTime := none,
          attempts := st.job.attempts + 1,
          killCalled := false,
          lost := false } })

/-- `jtouch` (serverCLI.go lines 241-279).  The middle component is the
`KillCalled` field of the reply (absent on error). -/
def jtouch (cr : ClientRequest) (now ttrConf : Int) (st : SState) :
    Option SrErr × Option Bool × SState :=
  match getij cr st with
  | some e => (some e, none, st)
  | none =>
    let killCalled := st.job.killCalled
    let lost := st.job.lost
    let killCalled := if killCalled then true else st.killRunners
    if killCalled then (none, some true, st)
    else
      match qTouch now ttrConf st with
      | none => (some SrErr.internalError, none, st)
      | some st1 =>
        if lost then
          (none, some false,
            { st1 with
              job := { st1.job with lost := false, endTime := none },
              broadcasts := st1.broadcasts ++
                [{ repGroup := "+all+", fromState := JobState.lost, toState := JobState.running, delta := 1 },
                 { repGroup := st1.job.repGroup, fromState := JobState.lost, toState := JobState.running, delta := 1 }] })
        else (none, some false, st1)

/-- `jend` (serverCLI.go lines 280-294). -/
def jend (cr : ClientRequest) (now : Int) (st : SState) : Option SrErr × SState :=
  match getij cr st with
  | some e => (some e, st)
  | none =>
    match cr.job with
    | none => (some SrErr.badRequest, st)
    | some cj =>
      (none, { st with
        job := { st.job with
          exited := true, exitcode := cj.exitcode, peakRAM := cj.peakRAM,
          cputime := cj.cputime, endTime := some now, actualCwd := cj.actualCwd },
        stdioSaved := true })

/-- `Server.decrementGroupCount`, abstracted to this job's counter. -/
def decrementGroupCount (st : SState) : SState :=
  { st with groupCount := st.groupCount - 1 }

/-- `jarchive` (serverCLI.go lines 295-338).  `dbOk` abstracts whether
`db.archiveJob` succeeds. -/
def jarchive (cr : ClientRequest) (dbOk : Bool) (st : SState) : Option SrErr × SState :=
  match getij cr st with
  | some e => (some e, st)
  | none =>
    if st.item ≠ some ItemState.run then (some SrErr.badJob, st)
    else if ¬st.job.exited ∨ st.job.exitcode ≠ 0 ∨ st.job.startTime = none ∨ st.job.endTime = none then
      (some SrErr.badRequest, st)
    else
      let st1 := { st with job := { st.job with state := JobState.complete, failReason := "" } }
      if ¬dbOk then (some SrErr.dbError, st1)
      else
        match qRemove st1 with
        | none => (some SrErr.internalError, st1)
        | some st2 => (none, decrementGroupCount { st2 with archived := true, rplEntry := false })

/-- `jrelease` (serverCLI.go lines 339-375): decrement `UntilBuried` only
when the command was started, then Bury or Release, decrementing the
scheduler-group counter either way.  `updateRecsAfterFailure` touches no
modelled field and is recorded as `recsUpdated`. -/
def jrelease (cr : ClientRequest) (st : SState) : Option SrErr × SState :=
  match getij cr st with
  | some e => (some e, st)
  | none =>
    match cr.job with
    | none => (some SrErr.badRequest, st)
    | some cj =>
      let j0 := { st.job with failReason := cj.failReason }
      let j1 := if j0.startTime ≠ none then { j0 with untilBuried := j0.untilBuried - 1 } else j0
      let j2 := if j1.exited ∧ j1.exitcode ≠ 0 then { j1 with recsUpdated := true } else j1
      let st1 := { st with job := j2 }
      if j2.untilBuried ≤ 0 then
        match qBury st1 with
        | none => (some SrErr.internalError, st1)
        | some st2 => (none, decrementGroupCount st2)
      else
        match qRelease st1 with
        | none => (some SrErr.internalError, st1)
        | some st2 => (none, decrementGroupCount st2)

/-- The five reserved-job methods, for claims quantifying over them. -/
inductive JMethod
  | jstartM
  | jtouchM
  | jendM
  | jarchiveM
  | jreleaseM
deriving DecidableEq

def handleJ (m : JMethod) (cr : ClientRequest) (now ttrConf : Int) (dbOk : Bool)
    (st : SState) : Option SrErr × SState :=
  match m with
  | JMethod.jstartM => jstart cr now st
  | JMethod.jtouchM => ((jtouch cr now ttrConf st).1, (jtouch cr now ttrConf st).2.2)
  | JMethod.jendM => jend cr now st
  | JMethod.jarchiveM => jarchive cr dbOk st
  | JMethod.jreleaseM => jrelease cr st

/-- The client-visible job state, as `itemToJob` derives it (serverCLI.go
lines 555-607) with the sub-queue → state mapping modelled from the spec:
Run maps to Reserved, refined to Lost when the lost flag is set, or to
Running when the command was started. -/
def jobStateOf (st : SState) : JobState :=
  match st.item with
  | none => if st.archived then JobState.complete else JobState.unknown
  | some ItemState.delay => JobState.delayed
  | some ItemState.ready => JobState.ready
  | some ItemState.run =>
    if st.job.lost then JobState.lost
    else if st.job.startTime ≠ none then JobState.running
    else JobState.reserved
  | some ItemState.bury => JobState.buried
  | some ItemState.dependent => JobState.dependent

/-- The clean-exit condition `jarchive` checks (serverCLI.go line 310). -/
def cleanlyExited (j : Job) : Prop :=
  j.exited = true ∧ j.exitcode = 0 ∧ j.startTime ≠ none ∧ j.endTime ≠ none

instance (j : Job) : Decidable (cleanlyExited j) := by
  unfold cleanlyExited
  infer_instance

/-- A fresh job as `add` creates it: Retries 1, so UntilBuried 2. -/
def freshJob : Job :=
  { reservedBy := 0, exited := false, exitcode := 0, pid := 0, host := "", hostID := "",
    hostIP := "", startTime := none, endTime := none, peakRAM := 0, cputime := 0,
    attempts := 0, untilBuried := 2, retries := 1, killCalled := false, lost := false,
    state := JobState.ready, failReason := "", actualCwd := "", repGroup := "rg",
    schedGroup := "sg", recsUpdated := false }

/-- The fresh job sitting in the Ready sub-queue. -/
def freshSState : SState :=
  { item := some ItemState.ready, ttr := 0, delay := 0, job := freshJob,
    killRunners := false, groupCount := 1, archived := false, rplEntry := true,
    stdioSaved := false, broadcasts := [] }

/-- A `jstart` payload: pid 42 on host "h1". -/
def crStart : CRJob :=
  { pid := 42, host := "h1", hostIP := "10.0.0.1", exitcode := 0, peakRAM := 0,
    cputime := 0, actualCwd := "", failReason := "" }

/-- An otherwise-empty `cr.Job` payload. -/
def crNil : CRJob :=
  { pid := 0, host := "", hostIP := "", exitcode := 0, peakRAM := 0, cputime := 0,
    actualCwd := "", failReason := "" }

/-- An `end`-of-run payload reporting exit code 0. -/
def crEndOk : CRJob :=
  { pid := 0, host := "", hostIP := "", exitcode := 0, peakRAM := 500, cputime := 3,
    actualCwd := "/tmp", failReason := "" }

/-- A scheduler state with one spawn already in flight and nothing reserved:
the situation in which a second `runCmd` becomes a spawn-waiter. -/
def c1St0 : OpstState :=
  { quotaMaxInstances := 10, reservedInstances := 0, reservedCores := 0,
    reservedRAM := 0, reservedVolume := 0, waitingToSpawn := 0, spawningNow := 1,
    nextSpawnTime := 50, standins := [] }

def c1Flavor : Flavor := { cores := 2, ram := 2048, disk := 10 }

def c1Req : Requirements := { ram := 1000, cores := 1, disk := 0 }

/-- Concrete inputs exercising `canCount`. -/
def c8S : OpstState :=
  { quotaMaxInstances := 10, reservedInstances := 1, reservedCores := 4,
    reservedRAM := 4096, reservedVolume := 0, waitingToSpawn := 0, spawningNow := 0,
    nextSpawnTime := 0, standins := [] }

def c8Servers : List SrvSpace := [{ destroyed := false, space := 2 }, { destroyed := true, space := 5 }]

def c8Flavor : Flavor := { cores := 4, ram := 4096, disk := 10 }

def c8Quota : Quota :=
  { maxInstances := 10, maxCores := 40, maxRAM := 64000, maxVolume := 1000,
    usedInstances := 2, usedCores := 8, usedRAM := 8192, usedVolume := 0 }

def c8Req : Requirements := { ram := 1000, cores := 1, disk := 1 }

/-- A job reserved by client 7, started at time 5 and ended at time 9 with
exit code 0. -/
def c4Job : Job :=
  { freshJob with
    reservedBy := 7, exited := true, exitcode := 0, pid := 42, host := "h1",
    startTime := some 5, endTime := some 9, attempts := 1, state := JobState.running }

/-- A run-state server state around `c4Job`: the precondition of a clean
`jarchive`. -/
def c4St : SState :=
  { item := some ItemState.run, ttr := 40, delay := 20, job := c4Job,
    killRunners := false, groupCount := 1, archived := false, rplEntry := true,
    stdioSaved := true, broadcasts := [] }

/-! ## Helper lemmas -/

theorem minIfLess_eq_min (a b : Int) : minIfLess a b = min a b := by
  unfold minIfLess
  rcases lt_or_ge b a with h | h
  · simp [h, min_eq_right h.le]
  · simp [not_lt.mpr h, min_eq_left h]

theorem one_le_tdiv {a b : Int} (hb : 0 < b) (hba : b ≤ a) : 1 ≤ a.tdiv b := by
  rw [Int.tdiv_eq_ediv (by omega) (by omega), Int.le_ediv_iff_mul_le hb]
  omega

theorem le_tdiv {k a b : Int} (hb : 0 < b) (ha : 0 ≤ a) (h : k * b ≤ a) : k ≤ a.tdiv b := by
  rw [Int.tdiv_eq_ediv ha (by omega), Int.le_ediv_iff_mul_le hb]
  exact h

theorem ifone_min3 (a q1 q2 : Int) (ha : 1 ≤ a) (h1 : 1 ≤ q1) (h2 : 1 ≤ q2) :
    (if 1 < a then min (min a q1) q2 else a) = min a (min q1 q2) := by
  split
  · rw [min_assoc]
  · have hea : a = 1 := by omega
    subst hea
    have : (1 : Int) ≤ min q1 q2 := le_min h1 h2
    rw [min_eq_left this]

theorem ifone_min4 (a q1 q2 q3 : Int) (ha : 1 ≤ a) (h1 : 1 ≤ q1) (h2 : 1 ≤ q2) (h3 : 1 ≤ q3) :
    (if 1 < a then min (min (min a q1) q2) q3 else a) = min a (min q1 (min q2 q3)) := by
  split
  · rw [min_assoc, min_assoc]
  · have hea : a = 1 := by omega
    subst hea
    have : (1 : Int) ≤ min q1 (min q2 q3) := le_min h1 (le_min h2 h3)
    rw [min_eq_left this]

theorem existingCapacity_eq (l : List SrvSpace) :
    existingCapacity l = ((l.filter (fun sv => !sv.destroyed)).map SrvSpace.space).sum := by
  induction l with
  | nil => rfl
  | cons s rest ih =>
    cases hs : s.destroyed <;>
      simp [existingCapacity, List.filter, hs, ih]

/-! ## Claim C10: `standin.hasSpaceFor` -/

/-- C10: `standin.hasSpaceFor` is total only when `req.Cores`, `req.RAM` and
`req.Disk` are all strictly positive.  Under that precondition it returns 0
when some remaining dimension is below the requirement and otherwise the
minimum (at least 1) over the three dimensions of remaining capacity divided
by the requirement; a requirement with a zero dimension admits standin
states on which an unguarded division by zero makes the function
undefined. -/
theorem hasSpaceFor_total_iff (req : Requirements)
    (hc : 0 ≤ req.cores) (hr : 0 ≤ req.ram) (hd : 0 ≤ req.disk) :
    (0 < req.cores ∧ 0 < req.ram ∧ 0 < req.disk →
      ∀ s : standinRec,
        hasSpaceFor s req = some (standinSpaceSpec s req) ∧
        (¬(s.flavor.cores - s.usedCores < req.cores ∨ s.flavor.ram - s.usedRAM < req.ram ∨
            s.disk - s.usedDisk < req.disk) →
          1 ≤ standinSpaceSpec s req)) ∧
    ((req.cores = 0 ∨ req.ram = 0 ∨ req.disk = 0) →
      ∃ s : standinRec, hasSpaceFor s req = none) := by
  constructor
  · rintro ⟨hc', hr', hd'⟩ s
    by_cases hguard : s.flavor.cores - s.usedCores < req.cores ∨
        s.flavor.ram - s.usedRAM < req.ram ∨ s.disk - s.usedDisk < req.disk
    · refine ⟨by simp only [hasSpaceFor, standinSpaceSpec, if_pos hguard], fun hng => absurd hguard hng⟩
    · have hg' := hguard
      push_neg at hg'
      obtain ⟨g1, g2, g3⟩ := hg'
      have q1 := one_le_tdiv hc' g1
      have q2 := one_le_tdiv hr' g2
      have q3 := one_le_tdiv hd' g3
      constructor
      · rw [hasSpaceFor, standinSpaceSpec, if_neg hguard, if_neg hguard]
        simp only [checkedDiv, if_neg (by omega : ¬req.cores = 0),
          if_neg (by omega : ¬req.ram = 0), if_neg (by omega : ¬req.disk = 0),
          minIfLess_eq_min]
        rw [← apply_ite some, ifone_min3 _ _ _ q1 q2 q3]
      · intro _
        rw [standinSpaceSpec, if_neg hguard]
        exact le_min q1 (le_min q2 q3)
  · intro h0
    refine ⟨{ id := "w", flavor := { cores := 2 * req.cores + 2, ram := 2 * req.ram + 2, disk := 0 },
              disk := 2 * req.disk + 2, os := "", usedRAM := 0, usedCores := 0, usedDisk := 0,
              fail := false, work := false }, ?_⟩
    rw [hasSpaceFor, if_neg (by simp only []; omega)]
    by_cases hc0 : req.cores = 0
    · simp [checkedDiv, hc0]
    · have h2 : (2 : Int) ≤ (2 * req.cores + 2 - 0).tdiv req.cores :=
        le_tdiv (by omega) (by omega) (by omega)
      simp only [checkedDiv, if_neg hc0]
      rw [if_pos (by omega : (1 : Int) < (2 * req.cores + 2 - 0).tdiv req.cores)]
      by_cases hr0 : req.ram = 0
      · simp [hr0]
      · have hd0 : req.disk = 0 := by tauto
        simp [hr0, hd0]

/-- Witness for C10: the theorem applied at the positive requirement
{RAM 1024, Cores 1, Disk 5} and the concrete standin `wStandin`. -/
theorem hasSpaceFor_total_iff_witness :
    hasSpaceFor wStandin { ram := 1024, cores := 1, disk := 5 }
      = some (standinSpaceSpec wStandin { ram := 1024, cores := 1, disk := 5 }) :=
  ((hasSpaceFor_total_iff { ram := 1024, cores := 1, disk := 5 }
      (by decide) (by decide) (by decide)).1 (by decide) wStandin).1

/-! ## Claim C1: cancelling a spawn-waiter leaks its quota reservations -/

/-- C1 (evaluation at the failing input): a `runCmd` that became a
spawn-waiter (incrementing `waitingToSpawn` and pre-reserving quota) and is
then cancelled via `stopWaitingToSpawn` has its standin marked failed and
removed and `waitingToSpawn` restored, but the `reserved*` counters stay at
their incremented values — the branch at openstack.go lines 576-584 never
undoes the reservations made at lines 542-547. -/
theorem runCmd_cancel_leaks_reservations :
    (let st1 := runCmdStartSpawn c1St0 c1Flavor c1Req "sid" "img" 100
     let res := runCmdCancelWait st1 "sid"
     st1.waitingToSpawn = 1 ∧
     res.1.waitingToSpawn = c1St0.waitingToSpawn ∧
     res.2.map standinRec.fail = some true ∧
     res.1.standins.find? (fun p => p.1 == "sid") = none ∧
     res.1.reservedInstances = c1St0.reservedInstances + 1 ∧
     res.1.reservedCores = c1St0.reservedCores + c1Flavor.cores ∧
     res.1.reservedRAM = c1St0.reservedRAM + c1Flavor.ram ∧
     res.1.reservedVolume = c1St0.reservedVolume ∧
     res.1.reservedInstances ≠ c1St0.reservedInstances) := by
  decide

/-! ## Claim C3: the 10-second spawn throttle -/

/-- C3 as stated is false: on the trace "spawn arrives at t=0 (initiates),
that spawn finishes at t=3, a new runCmd arrives at t=5", the second arrival
sees `waitingToSpawn + spawningNow = 0` and initiates a second
`provider.Spawn` only 5 seconds after the first — the immediate-spawn branch
(openstack.go lines 536-538) never consults `nextSpawnTime`. -/
theorem spawnThrottleClaim_false : ¬SpawnThrottleClaim := by
  intro h
  exact absurd
    (h [(0, SpawnEvent.arrive), (3, SpawnEvent.spawnDone), (5, SpawnEvent.arrive)] (by decide))
    (by decide)

theorem throttleRun_tickSpacedFrom (tr : List (Int × SpawnEvent)) :
    ∀ st : ThrottleState, tickSpacedFromB st.nextSpawnTime (throttleRun st tr).2 = true := by
  induction tr with
  | nil => intro st; rfl
  | cons he rest ih =>
    obtain ⟨t, e⟩ := he
    intro st
    cases e with
    | arrive =>
      by_cases h : st.waiting + st.spawning = 0
      · have hh := ih { st with nextSpawnTime := t + 10, spawning := st.spawning + 1 }
        simp only [throttleRun, throttleStep, if_pos h] at hh ⊢
        simpa [tickSpacedFromB] using hh
      · have hh := ih { st with waiting := st.waiting + 1 }
        simp only [throttleRun, throttleStep, if_neg h] at hh ⊢
        simpa using hh
    | tick =>
      by_cases h : st.nextSpawnTime < t
      · have hh := ih { st with nextSpawnTime := t + 10, waiting := st.waiting - 1, spawning := st.spawning + 1 }
        simp only [throttleRun, throttleStep, if_pos h] at hh ⊢
        simpa [tickSpacedFromB, h] using hh
      · have hh := ih st
        simp only [throttleRun, throttleStep, if_neg h] at hh ⊢
        simpa using hh
    | spawnDone =>
      have hh := ih { st with spawning := st.spawning - 1 }
      simp only [throttleRun, throttleStep] at hh ⊢
      simpa using hh
    | cancel =>
      have hh := ih { st with waiting := st.waiting - 1 }
      simp only [throttleRun, throttleStep] at hh ⊢
      simpa using hh

theorem tickSpacedFromB_imp (l : List (Int × SpawnEvent)) :
    ∀ nxt : Int, tickSpacedFromB nxt l = true → tickSpacedB l = true := by
  induction l with
  | nil => intro _ _; rfl
  | cons a rest ih =>
    intro nxt h
    obtain ⟨t, e⟩ := a
    rw [tickSpacedFromB, Bool.and_eq_true] at h
    obtain ⟨_, h2⟩ := h
    cases rest with
    | nil => rfl
    | cons b rest' =>
      obtain ⟨t', e'⟩ := b
      rw [tickSpacedFromB, Bool.and_eq_true] at h2
      rw [tickSpacedB, Bool.and_eq_true]
      exact ⟨h2.1, ih (t + 10) (by rw [tickSpacedFromB, Bool.and_eq_true]; exact h2)⟩

/-- C3 amended: on every event trace, a spawn initiation that happens via a
waiter's tick promotion comes strictly more than 10 seconds after the
previous spawn initiation; only an initiation taken when
`waitingToSpawn + spawningNow = 0` can break the 10-second spacing. -/
theorem throttle_tick_initiations_spaced (tr : List (Int × SpawnEvent)) :
    tickSpacedB (throttleInits tr) = true :=
  tickSpacedFromB_imp _ _ (throttleRun_tickSpacedFrom tr throttleInitSt)

/-! ## Claim C2: `reserve` with `Timeout ≤ 0` on an empty Ready sub-queue -/

/-- C2 as stated is false: with timeout 0 and an empty Ready sub-queue the
dispatcher's stop channel never fires (serverCLI.go line 155 makes a channel
nobody writes to), so after a tick of polling the handler is still blocked
rather than having replied with the empty response. -/
theorem reserveZeroTimeout_not_immediate : ¬ReserveZeroTimeoutImmediate := by
  intro h
  exact absurd (h 0 (by decide) 0 (fun _ => QPoll.nothingReady) 1) (by decide)

theorem reserveLoop_const_nothing (fuel : Nat) :
    ∀ tick : Nat, reserveLoop (fun _ => QPoll.nothingReady) none tick fuel = none := by
  induction fuel with
  | zero => intro tick; rfl
  | succ n ih =>
    intro tick
    rw [reserveLoop]
    simpa [stopFired] using ih (tick + 1)

/-- C2 amended: a `reserve` whose Timeout is zero or negative against an
empty Ready sub-queue does not return at all while the queue stays empty —
its stop channel never fires, so the polling goroutine runs forever and the
dispatcher stays blocked for any number of ticks. -/
theorem reserveZeroTimeout_blocks (timeout : Int) (ht : timeout ≤ 0) (stopTick fuel : Nat) :
    handleReserveOnEmpty timeout stopTick (fun _ => QPoll.nothingReady) fuel = none := by
  have hs : stopChan timeout stopTick = none := by
    rw [stopChan, if_neg (by omega)]
  rw [handleReserveOnEmpty, hs]
  exact reserveLoop_const_nothing fuel 0

/-- Witness for C2's amended theorem: timeout 0, five ticks of patience, the
handler still has not replied. -/
theorem reserveZeroTimeout_blocks_witness :
    (0 : Int) ≤ 0 ∧
      handleReserveOnEmpty 0 0 (fun _ => QPoll.nothingReady) 5 = none :=
  ⟨by decide, reserveZeroTimeout_blocks 0 (by decide) 0 5⟩

/-! ## The `getij` gate -/

theorem getij_none_iff (cr : ClientRequest) (st : SState) :
    getij cr st = none ↔
      cr.job.isSome ∧ st.item = some ItemState.run ∧ cr.clientID = st.job.reservedBy := by
  rcases hcj : cr.job with _ | cj <;> rcases hi : st.item with _ | is
  · simp [getij, hcj, hi]
  · simp [getij, hcj, hi]
  · simp [getij, hcj, hi]
  · cases is <;> by_cases hcid : cr.clientID = st.job.reservedBy <;>
      simp [getij, hcj, hi, hcid]

/-! ## Claim C7: requests from a non-reserving client get `MustReserve` -/

/-- C7: while a job's item is in the Run sub-queue and reserved by client
`c`, any of the five reserved-job methods called with a different
`ClientID` answers `MustReserve` and leaves the server state (job, queue
item, counters, broadcasts) untouched. -/
theorem nonreserver_gets_mustReserve (m : JMethod) (cr : ClientRequest) (cj : CRJob)
    (now ttrConf : Int) (dbOk : Bool) (st : SState)
    (hj : cr.job = some cj) (hrun : st.item = some ItemState.run)
    (hne : cr.clientID ≠ st.job.reservedBy) :
    handleJ m cr now ttrConf dbOk st = (some SrErr.mustReserve, st) := by
  have hg : getij cr st = some SrErr.mustReserve := by
    simp [getij, hj, hrun, hne]
  cases m <;> simp [handleJ, jstart, jtouch, jend, jarchive, jrelease, hg]

/-- Witness for C7: `jrelease` for the job reserved by client 7, sent by
client 8, answers `MustReserve` and changes nothing. -/
theorem nonreserver_gets_mustReserve_witness :
    handleJ JMethod.jreleaseM { clientID := 8, job := some crNil } 1 30 true c4St
      = (some SrErr.mustReserve, c4St) :=
  nonreserver_gets_mustReserve JMethod.jreleaseM { clientID := 8, job := some crNil }
    crNil 1 30 true c4St rfl rfl (by decide)

/-! ## Claim C6: `jtouch` -/

/-- C6: for a `jtouch` from the reserving client, the reply's `KillCalled`
is exactly `job.killCalled || server.killRunners`; when it is true the state
(in particular the item's TTR) is untouched; otherwise the TTR is renewed
and, if the job was Lost, the lost flag is cleared, `EndTime` is reset and
the Lost→Running transition is broadcast (to "+all+" and to the job's
RepGroup); a non-lost job sees only the TTR change. -/
theorem jtouch_killCalled_iff (cr : ClientRequest) (cj : CRJob) (st : SState) (now ttrConf : Int)
    (hj : cr.job = some cj) (hrun : st.item = some ItemState.run)
    (hcid : cr.clientID = st.job.reservedBy) :
    (jtouch cr now ttrConf st).2.1 = some (st.job.killCalled || st.killRunners) ∧
    ((st.job.killCalled || st.killRunners) = true →
      jtouch cr now ttrConf st = (none, some true, st)) ∧
    ((st.job.killCalled || st.killRunners) = false →
      (jtouch cr now ttrConf st).1 = none ∧
      ((jtouch cr now ttrConf st).2.2).ttr = now + ttrConf ∧
      (st.job.lost = true →
        ((jtouch cr now ttrConf st).2.2).job.lost = false ∧
        ((jtouch cr now ttrConf st).2.2).job.endTime = none ∧
        ((jtouch cr now ttrConf st).2.2).broadcasts = st.broadcasts ++
          [{ repGroup := "+all+", fromState := JobState.lost, toState := JobState.running, delta := 1 },
           { repGroup := st.job.repGroup, fromState := JobState.lost, toState := JobState.running, delta := 1 }]) ∧
      (st.job.lost = false →
        jtouch cr now ttrConf st = (none, some false, { st with ttr := now + ttrConf }))) := by
  have hg : getij cr st = none := (getij_none_iff cr st).mpr ⟨by simp [hj], hrun, hcid⟩
  cases hk : st.job.killCalled <;> cases hkr : st.killRunners <;> cases hl : st.job.lost <;>
    simp [jtouch, hg, qTouch, hrun, hk, hkr, hl]

/-- Witness for C6: `jtouch` from client 7 on `c4St` (not killed, not lost)
reports `KillCalled = false`. -/
theorem jtouch_killCalled_iff_witness :
    (jtouch { clientID := 7, job := some crNil } 11 30 c4St).2.1
      = some (c4St.job.killCalled || c4St.killRunners) :=
  (jtouch_killCalled_iff { clientID := 7, job := some crNil } crNil c4St 11 30
    rfl rfl rfl).1

/-! ## Claim C5: `jrelease` -/

/-- C5: a successful `jrelease` decrements `UntilBuried` exactly when
`StartTime` was set, then buries the item when the adjusted counter is at
most zero and otherwise releases it to the Delay sub-queue, and in either
case decrements the scheduler-group counter exactly once. -/
theorem jrelease_spec (cr : ClientRequest) (cj : CRJob) (st : SState)
    (hj : cr.job = some cj) (hok : (jrelease cr st).1 = none) :
    ((jrelease cr st).2).job.untilBuried
        = st.job.untilBuried - (if st.job.startTime ≠ none then 1 else 0) ∧
    ((jrelease cr st).2).item
        = some (if ((jrelease cr st).2).job.untilBuried ≤ 0 then ItemState.bury
                else ItemState.delay) ∧
    ((jrelease cr st).2).groupCount = st.groupCount - 1 := by
  cases hg : getij cr st with
  | some e =>
    exfalso
    simp only [jrelease, hg] at hok
    exact absurd hok (by simp)
  | none =>
    obtain ⟨-, hrun, -⟩ := (getij_none_iff cr st).mp hg
    simp only [jrelease, hg, hj]
    by_cases hstart : st.job.startTime ≠ none <;>
      by_cases hex : st.job.exited = true ∧ ¬st.job.exitcode = 0 <;>
        (try simp only [hstart, hex, if_true, if_false, ite_true, ite_false,
          not_true, not_false_iff]) <;>
      split_ifs with hub <;>
        first
          | omega
          | (simp_all [qBury, qRelease, decrementGroupCount, hrun] <;> omega)

/-- Witness for C5: releasing `c4St` (started, UntilBuried 2) from client 7
moves it to Delay with the group counter decremented. -/
theorem jrelease_spec_witness :
    ((jrelease { clientID := 7, job := some crNil } c4St).2).groupCount = c4St.groupCount - 1 :=
  (jrelease_spec { clientID := 7, job := some crNil } crNil c4St rfl (by decide)).2.2

/-! ## Claim C4: `jarchive` -/

/-- C4: a `jarchive` from the reserving client succeeds only when the item
is in the Run sub-queue and the job cleanly exited; an item not in Run
answers `BadJob` with the state unchanged; an item in Run whose job has not
cleanly exited answers `BadRequest` with the state unchanged. -/
theorem jarchive_spec (cr : ClientRequest) (cj : CRJob) (st : SState) (dbOk : Bool)
    (hj : cr.job = some cj) (hcid : cr.clientID = st.job.reservedBy) :
    ((jarchive cr dbOk st).1 = none → st.item = some ItemState.run ∧ cleanlyExited st.job) ∧
    (st.item ≠ some ItemState.run → jarchive cr dbOk st = (some SrErr.badJob, st)) ∧
    (st.item = some ItemState.run → ¬cleanlyExited st.job →
      jarchive cr dbOk st = (some SrErr.badRequest, st)) := by
  by_cases hrun : st.item = some ItemState.run
  · have hg : getij cr st = none := (getij_none_iff cr st).mpr ⟨by simp [hj], hrun, hcid⟩
    have hcond : ∀ hnc : ¬cleanlyExited st.job,
        jarchive cr dbOk st = (some SrErr.badRequest, st) := by
      intro hnc
      simp only [jarchive, hg, hrun]
      rw [if_neg (by simp), if_pos ?_]
      unfold cleanlyExited at hnc
      by_cases h1 : st.job.exited = true <;> by_cases h2 : st.job.exitcode = 0 <;>
        by_cases h3 : st.job.startTime = none <;> by_cases h4 : st.job.endTime = none <;>
          simp_all
    refine ⟨?_, fun h => absurd hrun h, fun _ => hcond⟩
    intro hok
    refine ⟨hrun, ?_⟩
    by_contra hnc
    rw [hcond hnc] at hok
    exact absurd hok (by simp)
  · have hg : getij cr st = some SrErr.badJob := by
      rcases hi : st.item with _ | is
      · simp [getij, hj, hi]
      · have his : is ≠ ItemState.run := by
          rintro rfl
          exact hrun hi
        simp [getij, hj, hi, his]
    have hres : jarchive cr dbOk st = (some SrErr.badJob, st) := by
      simp [jarchive, hg]
    refine ⟨?_, fun _ => hres, fun h => absurd h hrun⟩
    intro hok
    rw [hres] at hok
    exact absurd hok (by simp)

/-- Witness for C4: archiving the cleanly exited, still-running `c4St` from
client 7 passes both checks, and the theorem's necessity direction applies
to it. -/
theorem jarchive_spec_witness :
    (jarchive { clientID := 7, job := some crNil } true c4St).1 = none ∧
      (c4St.item = some ItemState.run ∧ cleanlyExited c4St.job) :=
  ⟨by decide,
    (jarchive_spec { clientID := 7, job := some crNil } crNil c4St true rfl rfl).1 (by decide)⟩

/-! ## Claim C8: `canCount` -/

/-- C8: with positive quota maxima, positive requirement dimensions, a
flavor actually covering the spawn requirement (as `CheapestServerFlavor`
guarantees) and a sane disk demand, `canCount` equals the claim's
description `canCountSpec`; and without a usable flavor or quota answer it
returns only the existing-server capacity. -/
theorem canCount_matches_spec (s : OpstState) (servers : List SrvSpace) (flavor : Flavor)
    (quota : Quota) (osRAM : Int) (req : Requirements)
    (hqi : 0 < s.quotaMaxInstances) (hqr : 0 < quota.maxRAM) (hqc : 0 < quota.maxCores)
    (hqv : 0 < quota.maxVolume)
    (hrc : 0 < req.cores) (hrr : 0 < req.ram) (hrd : 0 < req.disk)
    (hfc : req.cores ≤ flavor.cores) (hfr : (reqForSpawn osRAM req).ram ≤ flavor.ram)
    (hdu : req.disk ≤ unquotadVal) :
    canCount s servers (some flavor) (some quota) osRAM req
      = canCountSpec s servers (some flavor) (some quota) osRAM req ∧
    (∀ qr : Option Quota, canCount s servers none qr osRAM req = existingCapacity servers) ∧
    canCount s servers (some flavor) none osRAM req = existingCapacity servers := by
  have hSc : (reqForSpawn osRAM req).cores = req.cores := by
    rw [reqForSpawn]
    split <;> rfl
  have hSd : (reqForSpawn osRAM req).disk = req.disk := by
    rw [reqForSpawn]
    split <;> rfl
  have hSr : 0 < (reqForSpawn osRAM req).ram := by
    rw [reqForSpawn]
    split
    next h => exact hrr.trans h
    next h => exact hrr
  have hfc0 : 0 < flavor.cores := lt_of_lt_of_le hrc hfc
  have hfr0 : 0 < flavor.ram := lt_of_lt_of_le hSr hfr
  have hp0 : 1 ≤ flavor.cores.tdiv req.cores := one_le_tdiv hrc hfc
  have hp1 : 1 ≤ flavor.ram.tdiv (reqForSpawn osRAM req).ram := one_le_tdiv hSr hfr
  refine ⟨?_, fun qr => rfl, rfl⟩
  simp only [canCount, canCountSpec]
  rw [existingCapacity_eq servers]
  rw [if_pos hqi, if_pos hqr, if_pos hqc, hSc, hSd]
  by_cases hev : flavor.disk < req.disk
  · rw [if_pos (And.intro hqv hev)]
    simp only [hev, true_and, if_true, ite_true]
    by_cases hg : s.quotaMaxInstances - quota.usedInstances - s.reservedInstances < 1 ∨
        quota.maxRAM - quota.usedRAM - s.reservedRAM < flavor.ram ∨
        quota.maxCores - quota.usedCores - s.reservedCores < flavor.cores ∨
        quota.maxVolume - quota.usedVolume - s.reservedVolume < req.disk
    · rw [if_pos hg, if_pos hg]
    · rw [if_neg hg, if_neg hg]
      have h1 : 1 ≤ s.quotaMaxInstances - quota.usedInstances - s.reservedInstances := by omega
      have h2 : flavor.ram ≤ quota.maxRAM - quota.usedRAM - s.reservedRAM := by omega
      have h3 : flavor.cores ≤ quota.maxCores - quota.usedCores - s.reservedCores := by omega
      have h4 : req.disk ≤ quota.maxVolume - quota.usedVolume - s.reservedVolume := by omega
      have hq1 := one_le_tdiv hfr0 h2
      have hq2 := one_le_tdiv hfc0 h3
      have hq3 := one_le_tdiv hrd h4
      rw [if_pos hSr, if_pos hrd]
      simp only [minIfLess_eq_min]
      rw [ifone_min4 _ _ _ _ h1 hq1 hq2 hq3,
        ifone_min3 _ _ _ hp0 hp1 (le_refl (1 : Int))]
  · rw [if_neg (by simp [hev] : ¬(0 < quota.maxVolume ∧ flavor.disk < req.disk))]
    simp only [hev, false_and, if_false, ite_false]
    have hvol : ¬(unquotadVal < req.disk) := by
      rw [unquotadVal] at hdu ⊢
      omega
    simp only [hvol, or_false, false_or]
    by_cases hg : s.quotaMaxInstances - quota.usedInstances - s.reservedInstances < 1 ∨
        quota.maxRAM - quota.usedRAM - s.reservedRAM < flavor.ram ∨
        quota.maxCores - quota.usedCores - s.reservedCores < flavor.cores
    · rw [if_pos hg, if_pos hg]
    · rw [if_neg hg, if_neg hg]
      have h1 : 1 ≤ s.quotaMaxInstances - quota.usedInstances - s.reservedInstances := by omega
      have h2 : flavor.ram ≤ quota.maxRAM - quota.usedRAM - s.reservedRAM := by omega
      have h3 : flavor.cores ≤ quota.maxCores - quota.usedCores - s.reservedCores := by omega
      have hq1 := one_le_tdiv hfr0 h2
      have hq2 := one_le_tdiv hfc0 h3
      have hp2 : 1 ≤ flavor.disk.tdiv req.disk := one_le_tdiv hrd (not_lt.mp hev)
      rw [if_pos hSr, if_pos hrd]
      simp only [minIfLess_eq_min]
      rw [ifone_min3 _ _ _ h1 hq1 hq2, ifone_min3 _ _ _ hp0 hp1 hp2]

/-- Witness for C8: the theorem applied at the concrete scheduler state
`c8S`, two servers (one destroyed), flavor `c8Flavor`, quota `c8Quota` and
request `c8Req`. -/
theorem canCount_matches_spec_witness :
    canCount c8S c8Servers (some c8Flavor) (some c8Quota) 2048 c8Req
      = canCountSpec c8S c8Servers (some c8Flavor) (some c8Quota) 2048 c8Req :=
  (canCount_matches_spec c8S c8Servers c8Flavor c8Quota 2048 c8Req
    (by decide) (by decide) (by decide) (by decide) (by decide) (by decide) (by decide)
    (by decide) (by decide) (by decide)).1

/-! ## Claim C9: `ReservedBy` is not cleared when the job leaves Run -/

/-- C9 (evaluation at the failing input): reserve the fresh job as client 7,
`jstart` it, then `jrelease` it; the release succeeds and the item sits in
the Delay sub-queue with client-visible state Delayed, yet `ReservedBy`
still holds client 7 — serverCLI.go never unsets it (the comment at line
198 admits "we should unset this on moving out of run state"), so
"ReservedBy set iff State ∈ {Reserved, Running, Lost}" fails. -/
theorem reservedBy_kept_after_release :
    (let st1 := reserveAssign 7 20 ((qReserve 1 30 freshSState).getD freshSState)
     let st2 := (jstart { clientID := 7, job := some crStart } 5 st1).2
     let r := jrelease { clientID := 7, job := some crNil } st2
     r.1 = none ∧
     r.2.item = some ItemState.delay ∧
     jobStateOf r.2 = JobState.delayed ∧
     r.2.job.reservedBy = 7 ∧
     ¬(jobStateOf r.2 = JobState.reserved ∨ jobStateOf r.2 = JobState.running ∨
        jobStateOf r.2 = JobState.lost)) := by
  decide

end WR
